import Mathlib

/-!
# remix-auth-github — verification of the specification against the source

Shallow embedding of the GitHub OAuth2 authentication strategy
(`src/index.ts`, `src/lib/emails.ts`, and the historical
`remix-auth-oauth2`-based variants) together with proofs of the spec's
testable properties.

Conventions used throughout:

* JavaScript strings are Lean `String`s; `URLSearchParams.get` returning
  `null` is modelled with `Option String`.
* A JavaScript truthiness test on a `string | null` value (`if (error)`,
  `if (!code)`, …) is `truthy : Option String → Bool`: `none` and the
  empty string are falsy, every other string is truthy.  A URL "carries"
  a query parameter when the parameter is present with a non-empty
  value, which is exactly the condition under which the source code
  takes the corresponding branch.
* Randomness (`generateState()`) is modelled by passing the generated
  state token as an explicit argument to `authenticate`.
* External library behaviour that the source relies on but that is not
  part of this repository (URLSearchParams encoding, cookie-header
  parsing, arctic's authorization-URL construction, the `redirect`
  helper) is modelled from the spec's description of the corresponding
  wire formats (spec §4.2, §6, §9); each such definition carries a
  doc comment saying so.
-/

namespace RemixAuthGitHub

/-! ## Characters and hex digits -/

/-- Numeric value of a hexadecimal digit, `none` for other characters. -/
def hexVal (c : Char) : Option Nat :=
  if '0' ≤ c ∧ c ≤ '9' then some (c.toNat - 48)
  else if 'A' ≤ c ∧ c ≤ 'F' then some (c.toNat - 55)
  else if 'a' ≤ c ∧ c ≤ 'f' then some (c.toNat - 87)
  else none

/-- Upper-case hexadecimal digit for a value below 16. -/
def hexDigitChar (n : Nat) : Char :=
  if n < 10 then Char.ofNat (48 + n) else Char.ofNat (55 + n)

/-- Characters that `application/x-www-form-urlencoded` serialization
leaves unchanged: ASCII alphanumerics and `*`, `-`, `.`, `_`. -/
def isFormUnreserved (c : Char) : Bool :=
  (c.isAlpha && c.toNat < 128) || c.isDigit || c == '*' || c == '-' || c == '.' || c == '_'

/-! ## Form-urlencoding codec

Modelled from the spec: the state cookie's value is "form-url-encoded
key-value pairs" (spec §6) produced by `URLSearchParams` and read back
through `Cookie.get` / `new URLSearchParams(...)`; those live in the
`@mjackson/headers` and runtime `URL` libraries, outside `src/`. -/

/-- UTF-8 bytes of a character (standard 1–4 byte encoding). -/
def utf8Bytes (c : Char) : List Nat :=
  let n := c.toNat
  if n < 0x80 then [n]
  else if n < 0x800 then [0xC0 + n / 64, 0x80 + n % 64]
  else if n < 0x10000 then [0xE0 + n / 4096, 0x80 + n / 64 % 64, 0x80 + n % 64]
  else [0xF0 + n / 262144, 0x80 + n / 4096 % 64, 0x80 + n / 64 % 64, 0x80 + n % 64]

/-- Percent-encoding of a single byte, e.g. `0x3D ↦ "%3D"`. -/
def percentEncodeByte (b : Nat) : List Char :=
  ['%', hexDigitChar (b / 16), hexDigitChar (b % 16)]

/-- Form-urlencoding of one character: unreserved characters pass
through, a space becomes `+`, everything else is percent-encoded. -/
def encodeFormChar (c : Char) : List Char :=
  if isFormUnreserved c then [c]
  else if c == ' ' then ['+']
  else (utf8Bytes c).flatMap percentEncodeByte

/-- Form-urlencoding of a string component. -/
def encodeFormComponent (s : String) : String :=
  ⟨s.data.flatMap encodeFormChar⟩

/-- Serialization of a key-value list the way
`new URLSearchParams(pairs).toString()` renders it. -/
def encodeFormPairs : List (String × String) → String
  | [] => ""
  | [p] => encodeFormComponent p.1 ++ "=" ++ encodeFormComponent p.2
  | p :: rest =>
      encodeFormComponent p.1 ++ "=" ++ encodeFormComponent p.2 ++ "&" ++ encodeFormPairs rest

/-- Percent-decoding on character lists.  With `plusAsSpace := true`
this is the form-urlencoded decoding used by `URLSearchParams`; with
`plusAsSpace := false` it is `decodeURIComponent`-style decoding as
applied to cookie values.  Decoded bytes are mapped to the character
with that code point (exact for the ASCII payloads this system
produces). -/
def decodeFormChars (plusAsSpace : Bool) : List Char → List Char
  | [] => []
  | c :: rest =>
      if plusAsSpace && c == '+' then ' ' :: decodeFormChars plusAsSpace rest
      else if c == '%' then
        match rest with
        | h1 :: h2 :: rest' =>
            match hexVal h1, hexVal h2 with
            | some a, some b => Char.ofNat (16 * a + b) :: decodeFormChars plusAsSpace rest'
            | _, _ => c :: decodeFormChars plusAsSpace (h1 :: h2 :: rest')
        | [h1] => c :: decodeFormChars plusAsSpace [h1]
        | [] => [c]
      else c :: decodeFormChars plusAsSpace rest

/-- Split a character list on a separator; auxiliary accumulator-free
form returning the first segment and the remaining segments. -/
def splitOnCharAux (sep : Char) : List Char → List Char × List (List Char)
  | [] => ([], [])
  | c :: cs =>
      let (first, rest) := splitOnCharAux sep cs
      if c == sep then ([], first :: rest) else (c :: first, rest)

/-- Split a character list on a separator character. -/
def splitOnChar (sep : Char) (cs : List Char) : List (List Char) :=
  let (first, rest) := splitOnCharAux sep cs
  first :: rest

/-- Split a segment at the first occurrence of a separator; a segment
with no separator yields an empty second component. -/
def splitPair (sep : Char) : List Char → List Char × List Char
  | [] => ([], [])
  | c :: cs =>
      if c == sep then ([], cs)
      else
        let (k, v) := splitPair sep cs
        (c :: k, v)

/-- Parsing a form-urlencoded string into key-value pairs, as
`new URLSearchParams(input)` does: strip one leading `?`, split on `&`,
skip empty segments, split each segment at the first `=`, and
form-decode keys and values. -/
def parseFormParams (s : String) : List (String × String) :=
  let cs := if s.data.head? == some '?' then s.data.tail else s.data
  (splitOnChar '&' cs).filterMap fun piece =>
    if piece.isEmpty then none
    else
      let (k, v) := splitPair '=' piece
      some (⟨decodeFormChars true k⟩, ⟨decodeFormChars true v⟩)

/-- First value stored under a key, as `URLSearchParams.get`. -/
def searchParamsGet : List (String × String) → String → Option String
  | [], _ => none
  | p :: ps, k => if p.1 == k then some p.2 else searchParamsGet ps k

/-- Key-presence test, as `URLSearchParams.has`. -/
def searchParamsHas : List (String × String) → String → Bool
  | [], _ => false
  | p :: ps, k => p.1 == k || searchParamsHas ps k

/-- Leading and trailing spaces removed (cookie pieces are trimmed
after splitting the header on `;`). -/
def trimSpaces (cs : List Char) : List Char :=
  ((cs.dropWhile (· == ' ')).reverse.dropWhile (· == ' ')).reverse

/-- Parsing a `Cookie` request header into name/value pairs.
Modelled from the spec: the cookie wire format of spec §6, as read by
the `Cookie` class of `@mjackson/headers` (outside `src/`): split on
`;`, trim, split each piece at the first `=`, percent-decode. -/
def parseCookieHeader (s : String) : List (String × String) :=
  (splitOnChar ';' s.data).filterMap fun piece =>
    if (trimSpaces piece).isEmpty then none
    else
      let (k, v) := splitPair '=' (trimSpaces piece)
      some (⟨decodeFormChars false k⟩, ⟨decodeFormChars false v⟩)

/-- First cookie value stored under a name, as `Cookie.get`. -/
def cookieHeaderGet : List (String × String) → String → Option String
  | [], _ => none
  | p :: ps, k => if p.1 == k then some p.2 else cookieHeaderGet ps k

/-- Characters legal in a cookie name for the purposes of the
round-trip property: ASCII alphanumerics and `-`, `_`, `.` (a strict
subset of RFC 6265 tokens; names outside this set would not survive a
browser round-trip in the first place). -/
def isCookieNameChar (c : Char) : Bool :=
  c.isAlphanum || c == '-' || c == '_' || c == '.'

/-- A usable configured cookie name: non-empty and made of cookie-name
characters. -/
def validCookieName (s : String) : Bool :=
  !s.data.isEmpty && s.data.all isCookieNameChar

/-! ## Data model of the strategy (src/index.ts, arctic-based version) -/

/-- JavaScript truthiness of a `string | null` value: `null` and the
empty string are falsy. -/
def truthy : Option String → Bool
  | none => false
  | some s => s != ""

/-- The object form of the `cookie` constructor option:
`Omit<SetCookieInit, "value"> & { name: string }` restricted to the
attributes the strategy sets defaults for.  `none` in a field models
the key being absent from the object. -/
structure CookieInit where
  name : String
  httpOnly : Option Bool := none
  maxAge : Option Int := none
  path : Option String := none
  sameSite : Option String := none
deriving DecidableEq, Repr

/-- The `cookie` constructor option: absent, a plain name string, or an
attribute object. -/
inductive CookieOption where
  | unset
  | str (s : String)
  | obj (o : CookieInit)
deriving DecidableEq, Repr

/-- `GitHubStrategy.ConstructorOptions` (src/index.ts): immutable
configuration of the strategy. -/
structure ConstructorOptions where
  clientId : String
  clientSecret : String
  redirectURI : String
  scopes : Option (List String) := none
  cookie : CookieOption := .unset
deriving DecidableEq, Repr

/-- The `cookieName` getter (src/index.ts): a string option is used
directly unless empty, an object option contributes its `name`, and the
default is `"github"`. -/
def cookieName (opts : ConstructorOptions) : String :=
  match opts.cookie with
  | .str s => if s == "" then "github" else s
  | .obj o => o.name
  | .unset => "github"

/-- The `Set-Cookie` data the strategy builds: name, value and the
attributes it sets. -/
structure SetCookieData where
  name : String
  value : String
  httpOnly : Bool
  maxAge : Int
  path : String
  sameSite : String
deriving DecidableEq, Repr

/-- The `new SetCookie({...})` construction of the redirect branch
(src/index.ts): value is the url-encoded `state` payload; `httpOnly`,
`maxAge := 60 * 5`, `path := "/"`, `sameSite := "Lax"` are defaults,
and the spread of `cookieOptions` overrides every present attribute —
the option type omits `value`, so the value cannot be overridden. -/
def stateSetCookie (opts : ConstructorOptions) (state : String) : SetCookieData :=
  let base : SetCookieData :=
    { name := cookieName opts
      value := encodeFormPairs [("state", state)]
      httpOnly := true
      maxAge := 60 * 5
      path := "/"
      sameSite := "Lax" }
  match opts.cookie with
  | .obj o =>
      { base with
        name := o.name
        httpOnly := o.httpOnly.getD base.httpOnly
        maxAge := o.maxAge.getD base.maxAge
        path := o.path.getD base.path
        sameSite := o.sameSite.getD base.sameSite }
  | _ => base

/-- A provider authorization URL, split into host, path and decoded
query parameters. -/
structure AuthorizationUrl where
  host : String
  path : String
  params : List (String × String)
deriving DecidableEq, Repr

/-- Host of GitHub's authorization endpoint. -/
def authorizationEndpointHost : String := "github.com"

/-- Path of GitHub's authorization endpoint. -/
def authorizationEndpointPath : String := "/login/oauth/authorize"

/-- Modelled from the spec: the OAuth2 client adapter's
`createAuthorizationURL(state, scopes)` (the `arctic` GitHub client,
outside `src/`): deterministic construction of
`{authorizationEndpoint}?response_type=code&client_id=…&redirect_uri=…&state=…&scope=…`
where `scope` is the scopes joined by a single space and omitted when
no scopes are configured (spec §4.1 step 2, §4.2, §6). -/
def createAuthorizationURL (clientId redirectURI state : String)
    (scopes : List String) : AuthorizationUrl :=
  { host := authorizationEndpointHost
    path := authorizationEndpointPath
    params :=
      [("response_type", "code"), ("client_id", clientId),
       ("redirect_uri", redirectURI), ("state", state)] ++
      (if scopes.isEmpty then [] else [("scope", String.intercalate " " scopes)]) }

/-- `authorizationParams` (src/index.ts): the base strategy returns a
copy of the parameters, unchanged. -/
def authorizationParams (params : List (String × String)) : List (String × String) :=
  params

/-- An incoming HTTP request as `authenticate` consumes it: the URL's
decoded query parameters and the `Cookie` header, if any. -/
structure AuthRequest where
  query : List (String × String)
  cookieHeader : Option String := none
deriving DecidableEq, Repr

/-- Outcome of one `authenticate` call, following the spec's tagged
reading of the control flow (spec §4.1, §9): the thrown redirect, each
fatal error kind of spec §7 that `authenticate` itself raises, or the
token exchange being attempted with the given code
(`validateAuthorizationCode` is the first effect past the checks, so
the model stops there). -/
inductive AuthOutcome where
  /-- `OAuth2RequestError` thrown for an `error` callback parameter:
  carries code, description, URI and the possibly-absent state. -/
  | providerError (error : String) (description uri state : Option String)
  /-- The thrown redirect Response: `Location` and `Set-Cookie`. -/
  | redirect (location : AuthorizationUrl) (setCookie : SetCookieData)
  /-- `ReferenceError("Missing code in the URL")`. -/
  | missingCode
  /-- `ReferenceError("Missing state on cookie.")`. -/
  | missingState
  /-- `RangeError("State in URL doesn't match state in cookie.")`. -/
  | stateMismatch
  /-- `validateAuthorizationCode(code)` is invoked with this code. -/
  | tokenExchange (code : String)
deriving DecidableEq, Repr

/-- The `state` parameters decoded from the configured cookie:
`new URLSearchParams(new Cookie(request.headers.get("cookie") ?? "").get(cookieName))`
(src/index.ts, callback branch). -/
def cookieStateParams (opts : ConstructorOptions) (req : AuthRequest) : List (String × String) :=
  let cookie := parseCookieHeader (req.cookieHeader.getD "")
  parseFormParams ((cookieHeaderGet cookie (cookieName opts)).getD "")

/-- The `Location` URL of the redirect branch (src/index.ts):
`client.createAuthorizationURL(state, scopes ?? [])` with
`url.search = authorizationParams(url.searchParams, request).toString()`. -/
def redirectLocation (opts : ConstructorOptions) (state : String) : AuthorizationUrl :=
  let url := createAuthorizationURL opts.clientId opts.redirectURI state (opts.scopes.getD [])
  { url with params := authorizationParams url.params }

/-- `GitHubStrategy.authenticate(request)` (src/index.ts), with the
`generateState()` result passed in as `freshState`.  Control flow as in
the source: a truthy `error` parameter throws `OAuth2RequestError`; a
falsy `state` parameter takes the redirect branch; otherwise a falsy
`code` throws, then the cookie is read, a missing `state` entry throws,
a differing `state` entry throws, and finally the code is passed to
`validateAuthorizationCode`. -/
def authenticate (opts : ConstructorOptions) (freshState : String)
    (req : AuthRequest) : AuthOutcome :=
  if truthy (searchParamsGet req.query "error") then
    .providerError ((searchParamsGet req.query "error").getD "")
      (searchParamsGet req.query "error_description")
      (searchParamsGet req.query "error_uri") (searchParamsGet req.query "state")
  else if !truthy (searchParamsGet req.query "state") then
    .redirect (redirectLocation opts freshState) (stateSetCookie opts freshState)
  else if !truthy (searchParamsGet req.query "code") then .missingCode
  else if !searchParamsHas (cookieStateParams opts req) "state" then .missingState
  else if searchParamsGet (cookieStateParams opts req) "state" !=
      searchParamsGet req.query "state" then .stateMismatch
  else .tokenExchange ((searchParamsGet req.query "code").getD "")

/-! ## JSON values and the email normalizer (src/lib/emails.ts) -/

/-- Parsed JSON values, as produced by `response.json()`. -/
inductive Json where
  | null
  | bool (b : Bool)
  | num (n : Int)
  | str (s : String)
  | arr (items : List Json)
  | obj (fields : List (String × Json))

/-- JavaScript truthiness of a JSON value: `null`, `false`, `0` and the
empty string are falsy; every object and array is truthy. -/
def jsTruthy : Json → Bool
  | .null => false
  | .bool b => b
  | .num n => n != 0
  | .str s => s != ""
  | .arr _ => true
  | .obj _ => true

/-- `key in item`: key presence in an object's fields. -/
def jsonHasKey : List (String × Json) → String → Bool
  | [], _ => false
  | f :: fs, k => f.1 == k || jsonHasKey fs k

/-- Field access on an object's fields (parsed JSON objects have
unique keys, so the first match is the field). -/
def jsonLookup : List (String × Json) → String → Option Json
  | [], _ => none
  | f :: fs, k => if f.1 == k then some f.2 else jsonLookup fs k

/-- The per-element validation of `Response.emails`
(src/lib/emails.ts): `typeof item === "object"`, `item !== null`,
`!Array.isArray(item)` — which together say the item is a plain object
— and the four keys `email`, `verified`, `primary`, `visibility` are
present. -/
def validEmailItem : Json → Bool
  | .obj fields =>
      jsonHasKey fields "email" && jsonHasKey fields "verified" &&
      jsonHasKey fields "primary" && jsonHasKey fields "visibility"
  | _ => false

/-- Truthiness of `item.key` after the unchecked cast; a missing key
reads as `undefined`, which is falsy. -/
def fieldTruthy (item : Json) (k : String) : Bool :=
  match item with
  | .obj fields =>
      match jsonLookup fields k with
      | some v => jsTruthy v
      | none => false
  | _ => false

/-- `item.key` itself, `none` modelling `undefined`. -/
def fieldValue (item : Json) (k : String) : Option Json :=
  match item with
  | .obj fields => jsonLookup fields k
  | _ => none

/-- One output entry `{value, type}` of the email normalizer. -/
structure NormalizedEmail where
  value : Option Json
  type : String

/-- The sort comparator of `Response.emails` (src/lib/emails.ts):
`-1` when only `a.primary` is truthy, `1` when only `b.primary` is,
`0` otherwise. -/
def emailCompare (a b : Json) : Int :=
  if fieldTruthy a "primary" && !fieldTruthy b "primary" then -1
  else if !fieldTruthy a "primary" && fieldTruthy b "primary" then 1
  else 0

/-- Stable insertion: `x` is placed before the first element it
strictly precedes, hence after every earlier element it ties with. -/
def sortInsert (cmp : Json → Json → Int) (x : Json) : List Json → List Json
  | [] => [x]
  | y :: ys => if cmp x y < 0 then x :: y :: ys else y :: sortInsert cmp x ys

/-- A stable comparator sort, modelling `Array.prototype.sort`
(required to be stable since ES2019): elements are inserted left to
right, ties keeping their original relative order. -/
def jsSort (cmp : Json → Json → Int) (l : List Json) : List Json :=
  l.foldl (fun acc x => sortInsert cmp x acc) []

namespace Emails

/-- `Emails.Response` (src/lib/emails.ts): wraps a parsed JSON body. -/
structure Response where
  body : Json

/-- `Response.emails()` (src/lib/emails.ts): a non-array body or any
ill-shaped element yields `[]`; otherwise drop entries whose `verified`
is falsy, sort primary-first with the stable comparator sort, and map
to `{value: email, type: primary ? "primary" : "secondary"}`.  The
function is total: no input raises. -/
def Response.emails (r : Response) : List NormalizedEmail :=
  match r.body with
  | .arr items =>
      if items.all validEmailItem then
        ((jsSort emailCompare (items.filter (fieldTruthy · "verified"))).map fun item =>
          { value := fieldValue item "email"
            type := if fieldTruthy item "primary" then "primary" else "secondary" })
      else []
  | _ => []

end Emails

/-- A well-formed provider email record (the shape
`GitHubEmailsResponse` declares: `email` string, `verified` and
`primary` booleans, nullable `visibility`). -/
structure EmailRecord where
  email : String
  verified : Bool
  primary : Bool
  visibility : Option String
deriving DecidableEq, Repr

/-- The JSON object a well-formed email record parses from. -/
def EmailRecord.toJson (e : EmailRecord) : Json :=
  .obj [("email", .str e.email), ("verified", .bool e.verified),
        ("primary", .bool e.primary),
        ("visibility", match e.visibility with | some s => .str s | none => .null)]

/-! ## The `userProfile` email computation
(src/index.ts, remix-auth-oauth2 based variant) -/

/-- An email entry `{value}` of an OAuth2 profile. -/
structure ProfileEmail where
  value : String
deriving DecidableEq, Repr

/-- The scope test of `userProfile`:
`this.options.scopes?.includes("user") || this.options.scopes?.includes("user:email")`,
with `undefined` scopes reading as falsy. -/
def includesUserScope : Option (List String) → Bool
  | some l => l.contains "user" || l.contains "user:email"
  | none => false

/-- The email-list computation of `userProfile`
(src/index.ts, remix-auth-oauth2 based variant): `emails` starts as
`[]`; in the scope branch the source evaluates
`emails.concat(await this.fetchUserEmails(tokens))` — `concat` returns
a fresh array and the result is never assigned, so `emails` stays
`[]` — while the other branch `push`es `{value: data.email}`. -/
def userProfileEmails (scopes : Option (List String))
    (fetchedEmails : List ProfileEmail) (dataEmail : String) : List ProfileEmail :=
  let emails : List ProfileEmail := []
  if includesUserScope scopes then
    let _ := emails ++ fetchedEmails
    emails
  else emails ++ [⟨dataEmail⟩]

/-! ## Token-endpoint response parsing
(the historical variant's `getAccessToken` and `parseExpiresIn`) -/

/-- Result of JavaScript's `Number.parseInt`: an integer or `NaN`. -/
inductive JsNumber where
  | nan
  | int (n : Int)
deriving DecidableEq, Repr

/-- Value of a decimal digit string. -/
def natOfDigits (cs : List Char) : Nat :=
  cs.foldl (fun n c => 10 * n + (c.toNat - 48)) 0

/-- `Number.parseInt(value, 10)`: skip leading whitespace, read an
optional sign, then the longest prefix of decimal digits; no digits
means `NaN`.  It never throws. -/
def parseIntJs (s : String) : JsNumber :=
  let cs := s.data.dropWhile (·.isWhitespace)
  let signStripped := match cs with
    | '-' :: rest => (true, rest)
    | '+' :: rest => (false, rest)
    | _ => (false, cs)
  let digits := signStripped.2.takeWhile (·.isDigit)
  if digits.isEmpty then .nan
  else .int ((if signStripped.1 then -1 else 1) * (natOfDigits digits : Int))

/-- `parseExpiresIn(value)` (historical variant): a falsy value (`null`
or `""`) gives `null`; otherwise the result of
`Number.parseInt(value, 10)` — the surrounding `try/catch` is dead
code, because `parseInt` never throws, so an unparsable value comes
back as `NaN`, not `null`. -/
def parseExpiresIn (value : Option String) : Option JsNumber :=
  if truthy value then some (parseIntJs (value.getD "")) else none

/-- The parsed token response the historical `getAccessToken` returns. -/
structure AccessTokenResult where
  accessToken : String
  refreshToken : String
  tokenType : String
  accessTokenExpiresIn : Option JsNumber
  refreshTokenExpiresIn : Option JsNumber
deriving DecidableEq, Repr

/-- The token-exchange failure kinds of spec §7: the token endpoint
answered without an `access_token` or without a `token_type`. -/
inductive TokenExchangeError where
  | missingAccessToken
  | missingTokenType
deriving DecidableEq, Repr

/-- `getAccessToken(response)` (historical variant): the response text
is read as form-urlencoded parameters; a falsy `access_token` or
`token_type` fails the exchange, otherwise the tokens and the parsed
expiry fields are returned (`refresh_token` defaulting to `""`). -/
def getAccessToken (responseText : String) :
    Except TokenExchangeError AccessTokenResult :=
  let data := parseFormParams responseText
  if !truthy (searchParamsGet data "access_token") then
    .error .missingAccessToken
  else if !truthy (searchParamsGet data "token_type") then
    .error .missingTokenType
  else
    .ok { accessToken := (searchParamsGet data "access_token").getD ""
          refreshToken := (searchParamsGet data "refresh_token").getD ""
          tokenType := (searchParamsGet data "token_type").getD ""
          accessTokenExpiresIn := parseExpiresIn (searchParamsGet data "expires_in")
          refreshTokenExpiresIn :=
            parseExpiresIn (searchParamsGet data "refresh_token_expires_in") }

/-! ## Codec lemmas -/

theorem data_append (a b : String) : (a ++ b).data = a.data ++ b.data := rfl

theorem mk_data (s : String) : String.mk s.data = s := rfl

theorem unreserved_ne {c : Char} (h : isFormUnreserved c = true) :
    (c == '&') = false ∧ (c == '=') = false ∧ (c == '%') = false ∧
    (c == '+') = false ∧ (c == ';') = false ∧ (c == ' ') = false := by
  refine ⟨?_, ?_, ?_, ?_, ?_, ?_⟩ <;>
    · rw [beq_eq_false_iff_ne]
      intro he
      subst he
      exact absurd h (by decide)

theorem cookieNameChar_ne {c : Char} (h : isCookieNameChar c = true) :
    (c == ';') = false ∧ (c == '=') = false ∧ (c == '%') = false ∧
    (c == '+') = false ∧ (c == ' ') = false := by
  refine ⟨?_, ?_, ?_, ?_, ?_⟩ <;>
    · rw [beq_eq_false_iff_ne]
      intro he
      subst he
      exact absurd h (by decide)

theorem encodeFormChar_unreserved {c : Char} (h : isFormUnreserved c = true) :
    encodeFormChar c = [c] := by
  simp [encodeFormChar, h]

theorem flatMap_encodeFormChar_of_unreserved {cs : List Char}
    (h : ∀ c ∈ cs, isFormUnreserved c = true) :
    cs.flatMap encodeFormChar = cs := by
  induction cs with
  | nil => rfl
  | cons c rest ih =>
      rw [List.flatMap_cons, encodeFormChar_unreserved (h c (by simp)),
        ih fun c hc => h c (by simp [hc])]
      rfl

theorem encodeFormComponent_of_unreserved {s : String}
    (h : s.data.all isFormUnreserved = true) :
    encodeFormComponent s = s := by
  unfold encodeFormComponent
  rw [flatMap_encodeFormChar_of_unreserved (by simpa [List.all_eq_true] using h)]

theorem dropWhile_eq_self_of_all {p : Char → Bool} {cs : List Char}
    (h : ∀ c ∈ cs, p c = false) : cs.dropWhile p = cs := by
  cases cs with
  | nil => rfl
  | cons c rest => simp [List.dropWhile_cons, h c (by simp)]

theorem trimSpaces_eq_self {cs : List Char} (h : ∀ c ∈ cs, (c == ' ') = false) :
    trimSpaces cs = cs := by
  unfold trimSpaces
  rw [dropWhile_eq_self_of_all h,
    dropWhile_eq_self_of_all (fun c hc => h c (List.mem_reverse.mp hc)),
    List.reverse_reverse]

theorem splitOnCharAux_of_not_mem {sep : Char} {cs : List Char}
    (h : ∀ c ∈ cs, (c == sep) = false) : splitOnCharAux sep cs = (cs, []) := by
  induction cs with
  | nil => rfl
  | cons c rest ih =>
      rw [splitOnCharAux, ih fun c hc => h c (by simp [hc])]
      simp [h c (by simp)]

theorem splitOnChar_of_not_mem {sep : Char} {cs : List Char}
    (h : ∀ c ∈ cs, (c == sep) = false) : splitOnChar sep cs = [cs] := by
  rw [splitOnChar, splitOnCharAux_of_not_mem h]

theorem splitPair_append {sep : Char} {ks vs : List Char}
    (h : ∀ c ∈ ks, (c == sep) = false) :
    splitPair sep (ks ++ sep :: vs) = (ks, vs) := by
  induction ks with
  | nil => simp [splitPair]
  | cons c rest ih =>
      rw [List.cons_append, splitPair, h c (by simp),
        ih fun c hc => h c (by simp [hc])]
      simp

theorem decodeFormChars_eq_self {plus : Bool} {cs : List Char}
    (h : ∀ c ∈ cs, (c == '+') = false ∧ (c == '%') = false) :
    decodeFormChars plus cs = cs := by
  induction cs with
  | nil => rfl
  | cons c rest ih =>
      have hp := (h c (by simp)).1
      have hpc := (h c (by simp)).2
      have ih' := ih fun c hc => h c (by simp [hc])
      rw [decodeFormChars.eq_def]
      dsimp only
      rw [hp, hpc]
      simp [ih']

/-- Decoding the state cookie's payload: parsing `"state=" ++ st`
recovers the state exactly, for states made of unreserved characters
(which is what the state generator produces: base64url text). -/
theorem parseFormParams_state_payload {st : String}
    (h : st.data.all isFormUnreserved = true) :
    parseFormParams ("state=" ++ st) = [("state", st)] := by
  have hmem : ∀ c ∈ st.data, isFormUnreserved c = true := by
    simpa [List.all_eq_true] using h
  have hdata : ("state=" ++ st).data = 's' :: 't' :: 'a' :: 't' :: 'e' :: '=' :: st.data := by
    rw [data_append]
    rfl
  have hamp : ∀ c ∈ ('s' :: 't' :: 'a' :: 't' :: 'e' :: '=' :: st.data), (c == '&') = false := by
    intro c hc
    simp only [List.mem_cons] at hc
    rcases hc with rfl | rfl | rfl | rfl | rfl | rfl | hc
    · decide
    · decide
    · decide
    · decide
    · decide
    · decide
    · exact (unreserved_ne (hmem c hc)).1
  unfold parseFormParams
  rw [hdata]
  simp only [List.head?, decide_eq_true_eq, List.tail]
  rw [if_neg (by decide)]
  rw [splitOnChar_of_not_mem hamp]
  rw [List.filterMap_cons, List.filterMap_nil]
  have hsplit : splitPair '=' ('s' :: 't' :: 'a' :: 't' :: 'e' :: '=' :: st.data) =
      (['s', 't', 'a', 't', 'e'], st.data) :=
    @splitPair_append '=' ['s', 't', 'a', 't', 'e'] st.data (by decide)
  rw [hsplit]
  rw [decodeFormChars_eq_self (fun c hc =>
    ⟨(unreserved_ne (hmem c hc)).2.2.2.1, (unreserved_ne (hmem c hc)).2.2.1⟩)]
  rfl

/-- Parsing a single well-formed `name=value` cookie header yields
exactly that pair, provided the name is a usable cookie name and the
value avoids the cookie-header metacharacters. -/
theorem parseCookieHeader_single {name value : String}
    (hn : validCookieName name = true)
    (hv : ∀ c ∈ value.data,
      (c == ';') = false ∧ (c == ' ') = false ∧ (c == '%') = false ∧ (c == '+') = false) :
    parseCookieHeader (name ++ "=" ++ value) = [(name, value)] := by
  have hne : name.data ≠ [] := by
    intro he
    simp [validCookieName, he] at hn
  have hnc : ∀ c ∈ name.data, isCookieNameChar c = true := by
    have := (Bool.and_eq_true _ _).mp hn
    simpa [List.all_eq_true] using this.2
  have hdata : (name ++ "=" ++ value).data = name.data ++ '=' :: value.data := by
    rw [data_append, data_append]
    rw [show ("=" : String).data = ['='] from rfl, List.append_assoc]
    rfl
  have hsemi : ∀ c ∈ name.data ++ '=' :: value.data, (c == ';') = false := by
    intro c hc
    rcases List.mem_append.mp hc with hc | hc
    · exact (cookieNameChar_ne (hnc c hc)).1
    · rcases List.mem_cons.mp hc with rfl | hc
      · decide
      · exact (hv c hc).1
  have hsp : ∀ c ∈ name.data ++ '=' :: value.data, (c == ' ') = false := by
    intro c hc
    rcases List.mem_append.mp hc with hc | hc
    · exact (cookieNameChar_ne (hnc c hc)).2.2.2.2
    · rcases List.mem_cons.mp hc with rfl | hc
      · decide
      · exact (hv c hc).2.1
  unfold parseCookieHeader
  rw [hdata, splitOnChar_of_not_mem hsemi]
  rw [List.filterMap_cons, List.filterMap_nil]
  rw [trimSpaces_eq_self hsp]
  have hemp : (name.data ++ '=' :: value.data).isEmpty = false := by
    cases hnd : name.data with
    | nil => exact absurd hnd hne
    | cons c cs => simp
  rw [hemp]
  simp only [Bool.false_eq_true, if_false]
  have hsplit : splitPair '=' (name.data ++ '=' :: value.data) = (name.data, value.data) :=
    splitPair_append (fun c hc => (cookieNameChar_ne (hnc c hc)).2.1)
  rw [hsplit]
  rw [decodeFormChars_eq_self (fun c hc =>
    ⟨(cookieNameChar_ne (hnc c hc)).2.2.2.1, (cookieNameChar_ne (hnc c hc)).2.2.1⟩)]
  rw [decodeFormChars_eq_self (fun c hc => ⟨(hv c hc).2.2.2, (hv c hc).2.2.1⟩)]

/-! ## Helper lemmas about the strategy model -/

theorem searchParamsHas_of_get {ps : List (String × String)} {k v : String}
    (h : searchParamsGet ps k = some v) : searchParamsHas ps k = true := by
  induction ps with
  | nil => simp [searchParamsGet] at h
  | cons p ps ih =>
      rw [searchParamsGet] at h
      rw [searchParamsHas]
      by_cases hp : (p.1 == k) = true
      · simp [hp]
      · rw [if_neg hp] at h
        have hb : (p.1 == k) = false := by simpa using hp
        simp [hb, ih h]

theorem stateSetCookie_name (opts : ConstructorOptions) (st : String) :
    (stateSetCookie opts st).name = cookieName opts := by
  cases hc : opts.cookie <;> simp [stateSetCookie, cookieName, hc]

theorem stateSetCookie_value (opts : ConstructorOptions) (st : String) :
    (stateSetCookie opts st).value = encodeFormPairs [("state", st)] := by
  cases hc : opts.cookie <;> simp [stateSetCookie, hc]

theorem encodeStatePayload {st : String} (h : st.data.all isFormUnreserved = true) :
    encodeFormPairs [("state", st)] = "state=" ++ st := by
  show encodeFormComponent "state" ++ "=" ++ encodeFormComponent st = "state=" ++ st
  rw [encodeFormComponent_of_unreserved h]
  rw [show encodeFormComponent "state" = "state" from rfl]
  rw [show ("state" : String) ++ "=" = "state=" from rfl]

theorem authenticate_redirect (opts : ConstructorOptions) (fresh : String)
    (req : AuthRequest)
    (hstate : truthy (searchParamsGet req.query "state") = false)
    (herr : truthy (searchParamsGet req.query "error") = false) :
    authenticate opts fresh req =
      .redirect (redirectLocation opts fresh) (stateSetCookie opts fresh) := by
  unfold authenticate
  rw [herr, hstate]
  rfl

/-! ## Claim C2 -/

/-- C2: for every request whose URL carries a (non-empty) `error` query
parameter, `authenticate` fails immediately with a provider
authorization error carrying that error code, the `error_description`
and `error_uri` values, and the possibly-absent `state` value; this
happens before any state/code/cookie check, so no redirect is issued
and the token-exchange adapter is never invoked — even when `state` and
`code` are also present. -/
theorem c2_provider_error_short_circuits (opts : ConstructorOptions)
    (fresh : String) (req : AuthRequest) (e : String)
    (he : searchParamsGet req.query "error" = some e) (hne : e ≠ "") :
    authenticate opts fresh req =
      .providerError e (searchParamsGet req.query "error_description")
        (searchParamsGet req.query "error_uri") (searchParamsGet req.query "state") ∧
    (∀ l sc, authenticate opts fresh req ≠ .redirect l sc) ∧
    (∀ c, authenticate opts fresh req ≠ .tokenExchange c) := by
  have heq : authenticate opts fresh req =
      .providerError e (searchParamsGet req.query "error_description")
        (searchParamsGet req.query "error_uri") (searchParamsGet req.query "state") := by
    unfold authenticate
    rw [he]
    have ht : truthy (some e) = true := by simp [truthy, hne]
    rw [ht]
    simp
  refine ⟨heq, fun l sc h => ?_, fun c h => ?_⟩
  · rw [heq] at h
    exact AuthOutcome.noConfusion h
  · rw [heq] at h
    exact AuthOutcome.noConfusion h

/-- C2 witness: a concrete callback carrying `error`, `state` and
`code` still yields the provider error. -/
theorem c2_witness :
    authenticate ⟨"id", "secret", "https://example.app/callback", none, .unset⟩ "f"
      { query := [("error", "access_denied"), ("error_description", "denied"),
                  ("state", "s"), ("code", "c")] } =
      .providerError "access_denied" (some "denied") none (some "s") :=
  (c2_provider_error_short_circuits
    ⟨"id", "secret", "https://example.app/callback", none, .unset⟩ "f"
    { query := [("error", "access_denied"), ("error_description", "denied"),
                ("state", "s"), ("code", "c")] }
    "access_denied" (by decide) (by decide)).1

/-! ## Claim C5 -/

/-- C5: for every callback request that carries a (non-empty) `state`
query parameter but no usable `code` parameter (and no `error`
parameter), `authenticate` fails with the missing-code error,
regardless of the cookie contents, and the token-exchange adapter is
never invoked. -/
theorem c5_missing_code (opts : ConstructorOptions) (fresh : String)
    (req : AuthRequest) (s : String)
    (hstate : searchParamsGet req.query "state" = some s) (hs : s ≠ "")
    (herr : truthy (searchParamsGet req.query "error") = false)
    (hcode : truthy (searchParamsGet req.query "code") = false) :
    authenticate opts fresh req = .missingCode ∧
    (∀ c, authenticate opts fresh req ≠ .tokenExchange c) := by
  have heq : authenticate opts fresh req = .missingCode := by
    unfold authenticate
    rw [herr, hstate]
    have ht : truthy (some s) = true := by simp [truthy, hs]
    rw [ht, hcode]
    rfl
  refine ⟨heq, fun c h => ?_⟩
  rw [heq] at h
  exact AuthOutcome.noConfusion h

/-- C5 witness: a concrete callback with a state but no code fails with
the missing-code error even though the cookie holds a matching state. -/
theorem c5_witness :
    authenticate ⟨"id", "secret", "https://example.app/callback", none, .unset⟩ "f"
      { query := [("state", "aaa")], cookieHeader := some "github=state%3Daaa" } =
      .missingCode :=
  (c5_missing_code ⟨"id", "secret", "https://example.app/callback", none, .unset⟩ "f"
    { query := [("state", "aaa")], cookieHeader := some "github=state%3Daaa" }
    "aaa" (by decide) (by decide) (by decide) (by decide)).1

/-! ## Claim C1 -/

/-- C1 counterexample: the claim quantifies over every callback request
(state present, no error) and every cookie header, but `authenticate`
checks for `code` before it reads the cookie.  At this concrete input —
URL state `"aaa"`, no `code` parameter, cookie decoding to state
`"bbb"` — the claim's premises hold (the decoded cookie state differs
from the URL state) yet the outcome is the missing-code error, not the
state-mismatch error. -/
theorem c1_counterexample :
    searchParamsGet [(("state" : String), ("aaa" : String))] "state" = some "aaa" ∧
    searchParamsGet [(("state" : String), ("aaa" : String))] "error" = none ∧
    searchParamsGet
      (cookieStateParams ⟨"id", "secret", "https://example.app/callback", none, .unset⟩
        { query := [("state", "aaa")], cookieHeader := some "github=state%3Dbbb" })
      "state" = some "bbb" ∧
    authenticate ⟨"id", "secret", "https://example.app/callback", none, .unset⟩ "f"
      { query := [("state", "aaa")], cookieHeader := some "github=state%3Dbbb" } =
      .missingCode ∧
    AuthOutcome.missingCode ≠ .stateMismatch := by
  refine ⟨rfl, rfl, by decide, by decide, by decide⟩

/-- C1 (amended): for every callback request that carries a non-empty
`state` parameter, **a non-empty `code` parameter**, and no `error`
parameter, and every cookie header, if the `state` entry decoded from
the configured cookie differs from the URL's `state` under exact string
equality, `authenticate` fails with the state-mismatch error and the
token-exchange adapter is never invoked.  (The amendment adds the
`code` requirement: without a code the source fails earlier with the
missing-code error, as the counterexample shows.) -/
theorem c1_amended_state_mismatch (opts : ConstructorOptions) (fresh : String)
    (req : AuthRequest) (s c cs : String)
    (hstate : searchParamsGet req.query "state" = some s) (hs : s ≠ "")
    (herr : truthy (searchParamsGet req.query "error") = false)
    (hcode : searchParamsGet req.query "code" = some c) (hc : c ≠ "")
    (hcookie : searchParamsGet (cookieStateParams opts req) "state" = some cs)
    (hne : cs ≠ s) :
    authenticate opts fresh req = .stateMismatch ∧
    (∀ c', authenticate opts fresh req ≠ .tokenExchange c') := by
  have heq : authenticate opts fresh req = .stateMismatch := by
    unfold authenticate
    rw [herr, hstate, hcode]
    have hts : truthy (some s) = true := by simp [truthy, hs]
    have htc : truthy (some c) = true := by simp [truthy, hc]
    rw [hts, htc, searchParamsHas_of_get hcookie, hcookie]
    have hbne : (some cs != some s) = true := by simp [hne]
    rw [hbne]
    rfl
  refine ⟨heq, fun c' h => ?_⟩
  rw [heq] at h
  exact AuthOutcome.noConfusion h

/-- C1 witness: a concrete mismatching callback (cookie state `bbb`,
URL state `aaa`, code present) fails with the state-mismatch error. -/
theorem c1_witness :
    authenticate ⟨"id", "secret", "https://example.app/callback", none, .unset⟩ "f"
      { query := [("state", "aaa"), ("code", "c0de")],
        cookieHeader := some "github=state%3Dbbb" } = .stateMismatch :=
  (c1_amended_state_mismatch
    ⟨"id", "secret", "https://example.app/callback", none, .unset⟩ "f"
    { query := [("state", "aaa"), ("code", "c0de")],
      cookieHeader := some "github=state%3Dbbb" }
    "aaa" "c0de" "bbb" (by decide) (by decide) (by decide) (by decide) (by decide)
    (by decide) (by decide)).1

/-! ## Claim C3 -/

/-- C3: for every request with no usable `state` query parameter (and
no `error` parameter), `authenticate` yields a redirect whose Location
host/path equal the authorization endpoint and whose Set-Cookie value
encodes a `state` entry exactly equal to the `state` query parameter
embedded in the Location URL; under the default cookie options the
cookie is named `github` with `HttpOnly`, `Path=/`, `SameSite=Lax` and
`Max-Age=300`, and a cookie-options object can override every one of
those attributes — but never the value.  (The state token is the
`generateState()` output, base64url text, hence unreserved.) -/
theorem c3_redirect_contract (opts : ConstructorOptions) (fresh : String)
    (req : AuthRequest)
    (hstate : truthy (searchParamsGet req.query "state") = false)
    (herr : truthy (searchParamsGet req.query "error") = false)
    (hfresh : fresh.data.all isFormUnreserved = true) :
    authenticate opts fresh req =
      .redirect (redirectLocation opts fresh) (stateSetCookie opts fresh) ∧
    (redirectLocation opts fresh).host = authorizationEndpointHost ∧
    (redirectLocation opts fresh).path = authorizationEndpointPath ∧
    searchParamsGet (redirectLocation opts fresh).params "state" = some fresh ∧
    searchParamsGet (parseFormParams (stateSetCookie opts fresh).value) "state" =
      some fresh ∧
    (stateSetCookie opts fresh).value = encodeFormPairs [("state", fresh)] ∧
    (opts.cookie = .unset →
      (stateSetCookie opts fresh).name = "github" ∧
      (stateSetCookie opts fresh).httpOnly = true ∧
      (stateSetCookie opts fresh).path = "/" ∧
      (stateSetCookie opts fresh).sameSite = "Lax" ∧
      (stateSetCookie opts fresh).maxAge = 300) ∧
    (∀ o, opts.cookie = .obj o →
      (stateSetCookie opts fresh).name = o.name ∧
      (stateSetCookie opts fresh).httpOnly = o.httpOnly.getD true ∧
      (stateSetCookie opts fresh).maxAge = o.maxAge.getD 300 ∧
      (stateSetCookie opts fresh).path = o.path.getD "/" ∧
      (stateSetCookie opts fresh).sameSite = o.sameSite.getD "Lax" ∧
      (stateSetCookie opts fresh).value = encodeFormPairs [("state", fresh)]) := by
  refine ⟨authenticate_redirect opts fresh req hstate herr, rfl, rfl, ?_, ?_,
    stateSetCookie_value opts fresh, ?_, ?_⟩
  · simp [redirectLocation, createAuthorizationURL, authorizationParams, searchParamsGet]
  · rw [stateSetCookie_value, encodeStatePayload hfresh,
      parseFormParams_state_payload hfresh]
    simp [searchParamsGet]
  · intro h
    refine ⟨?_, ?_, ?_, ?_, ?_⟩ <;> simp [stateSetCookie, cookieName, h]
  · intro o h
    refine ⟨?_, ?_, ?_, ?_, ?_, ?_⟩ <;> simp [stateSetCookie, cookieName, h]

/-- C3 witness: with the default configuration and no query
parameters, the whole redirect contract holds for the concrete state
token `abc123`. -/
theorem c3_witness :
    authenticate ⟨"id", "secret", "https://example.app/callback", none, .unset⟩
      "abc123" { query := [] } =
      .redirect
        (redirectLocation ⟨"id", "secret", "https://example.app/callback", none, .unset⟩
          "abc123")
        (stateSetCookie ⟨"id", "secret", "https://example.app/callback", none, .unset⟩
          "abc123") :=
  (c3_redirect_contract ⟨"id", "secret", "https://example.app/callback", none, .unset⟩
    "abc123" { query := [] } (by decide) (by decide) (by decide)).1

/-! ## Claim C9 -/

/-- C9: for every `scopes` configuration, the generated authorization
URL's `scope` query parameter equals the configured scopes joined by a
single space, and the `scope` parameter is entirely absent when
`scopes` is empty or unset. -/
theorem c9_scope_parameter (opts : ConstructorOptions) (fresh : String)
    (req : AuthRequest)
    (hstate : truthy (searchParamsGet req.query "state") = false)
    (herr : truthy (searchParamsGet req.query "error") = false) :
    authenticate opts fresh req =
      .redirect (redirectLocation opts fresh) (stateSetCookie opts fresh) ∧
    (∀ l, opts.scopes = some l → l ≠ [] →
      searchParamsGet (redirectLocation opts fresh).params "scope" =
        some (String.intercalate " " l)) ∧
    ((opts.scopes = none ∨ opts.scopes = some ([] : List String)) →
      searchParamsGet (redirectLocation opts fresh).params "scope" = none) := by
  refine ⟨authenticate_redirect opts fresh req hstate herr, ?_, ?_⟩
  · intro l hl hne
    have hemp : l.isEmpty = false := by
      cases l with
      | nil => exact absurd rfl hne
      | cons a as => rfl
    simp [redirectLocation, createAuthorizationURL, authorizationParams, hl, hemp,
      searchParamsGet]
  · intro h
    rcases h with h | h <;>
      simp [redirectLocation, createAuthorizationURL, authorizationParams, h,
        searchParamsGet]

/-- C9 witness: the scope list of the repository's own test
(`["user:email", "read:user"]`) appears space-joined in the
authorization URL. -/
theorem c9_witness :
    searchParamsGet
      (redirectLocation
        ⟨"id", "secret", "https://example.app/callback",
          some ["user:email", "read:user"], .unset⟩ "f").params "scope" =
      some "user:email read:user" :=
  (c9_scope_parameter
    ⟨"id", "secret", "https://example.app/callback",
      some ["user:email", "read:user"], .unset⟩ "f" { query := [] }
    (by decide) (by decide)).2.1 ["user:email", "read:user"] rfl (by decide)

theorem authenticate_exchange (opts : ConstructorOptions) (fresh : String)
    (req : AuthRequest) (s c : String)
    (hstate : searchParamsGet req.query "state" = some s) (hs : s ≠ "")
    (herr : truthy (searchParamsGet req.query "error") = false)
    (hcode : searchParamsGet req.query "code" = some c) (hc : c ≠ "")
    (hcookie : searchParamsGet (cookieStateParams opts req) "state" = some s) :
    authenticate opts fresh req = .tokenExchange c := by
  unfold authenticate
  rw [herr, hstate, hcode]
  have hts : truthy (some s) = true := by simp [truthy, hs]
  have htc : truthy (some c) = true := by simp [truthy, hc]
  rw [hts, htc, searchParamsHas_of_get hcookie, hcookie]
  simp

/-! ## Claim C4 -/

/-- C4 (round-trip): for every configuration with a usable cookie name
and every state made of unreserved characters (as `generateState`
produces), replaying the redirect branch's Set-Cookie name/value
unchanged as the `Cookie` header of a callback carrying the same
`state` and a non-empty `code` decodes the state exactly, raises
neither the missing-state nor the state-mismatch error, and reaches the
token exchange with that code. -/
theorem c4_cookie_roundtrip (opts : ConstructorOptions) (fresh state code : String)
    (hname : validCookieName (cookieName opts) = true)
    (hstate : state.data.all isFormUnreserved = true) (hs : state ≠ "")
    (hcode : code ≠ "") :
    cookieStateParams opts
      { query := [("state", state), ("code", code)],
        cookieHeader := some ((stateSetCookie opts state).name ++ "=" ++
          (stateSetCookie opts state).value) } = [("state", state)] ∧
    authenticate opts fresh
      { query := [("state", state), ("code", code)],
        cookieHeader := some ((stateSetCookie opts state).name ++ "=" ++
          (stateSetCookie opts state).value) } = .tokenExchange code := by
  have hmem : ∀ c ∈ state.data, isFormUnreserved c = true := by
    simpa [List.all_eq_true] using hstate
  have hval : (stateSetCookie opts state).value = "state=" ++ state := by
    rw [stateSetCookie_value, encodeStatePayload hstate]
  have hvchars : ∀ c ∈ ("state=" ++ state).data,
      (c == ';') = false ∧ (c == ' ') = false ∧ (c == '%') = false ∧ (c == '+') = false := by
    intro c hc
    rw [show ("state=" ++ state).data = 's' :: 't' :: 'a' :: 't' :: 'e' :: '=' :: state.data
      from by rw [data_append]; rfl] at hc
    simp only [List.mem_cons] at hc
    rcases hc with rfl | rfl | rfl | rfl | rfl | rfl | hc
    · decide
    · decide
    · decide
    · decide
    · decide
    · decide
    · exact ⟨(unreserved_ne (hmem c hc)).2.2.2.2.1, (unreserved_ne (hmem c hc)).2.2.2.2.2,
        (unreserved_ne (hmem c hc)).2.2.1, (unreserved_ne (hmem c hc)).2.2.2.1⟩
  have hck : cookieStateParams opts
      { query := [("state", state), ("code", code)],
        cookieHeader := some ((stateSetCookie opts state).name ++ "=" ++
          (stateSetCookie opts state).value) } = [("state", state)] := by
    unfold cookieStateParams
    dsimp only [Option.getD]
    rw [stateSetCookie_name, hval]
    rw [parseCookieHeader_single hname hvchars]
    have hg : cookieHeaderGet [(cookieName opts, "state=" ++ state)] (cookieName opts) =
        some ("state=" ++ state) := by simp [cookieHeaderGet]
    rw [hg]
    dsimp only
    rw [parseFormParams_state_payload hstate]
  have h1 : searchParamsGet [(("state" : String), state), ("code", code)] "state" =
      some state := by simp [searchParamsGet]
  have h2 : truthy (searchParamsGet [(("state" : String), state), ("code", code)] "error") =
      false := by simp [searchParamsGet, truthy]
  have h3 : searchParamsGet [(("state" : String), state), ("code", code)] "code" =
      some code := by simp [searchParamsGet]
  have hcs : searchParamsGet (cookieStateParams opts
      { query := [("state", state), ("code", code)],
        cookieHeader := some ((stateSetCookie opts state).name ++ "=" ++
          (stateSetCookie opts state).value) }) "state" = some state := by
    rw [hck]
    simp [searchParamsGet]
  exact ⟨hck, authenticate_exchange opts fresh _ state code h1 hs h2 h3 hcode hcs⟩

/-- C4 witness: the default-configuration cookie for state `xyz`,
replayed on a callback with the same state and code `c0de`, reaches the
token exchange. -/
theorem c4_witness :
    authenticate ⟨"id", "secret", "https://example.app/callback", none, .unset⟩ "f"
      { query := [("state", "xyz"), ("code", "c0de")],
        cookieHeader := some
          ((stateSetCookie ⟨"id", "secret", "https://example.app/callback", none, .unset⟩
              "xyz").name ++ "=" ++
            (stateSetCookie ⟨"id", "secret", "https://example.app/callback", none, .unset⟩
              "xyz").value) } = .tokenExchange "c0de" :=
  (c4_cookie_roundtrip ⟨"id", "secret", "https://example.app/callback", none, .unset⟩
    "f" "xyz" "c0de" (by decide) (by decide) (by decide) (by decide)).2

/-! ## Stable-sort lemmas for the email normalizer -/

theorem emailCompare_neg {x y : Json} (hx : fieldTruthy x "primary" = true)
    (hy : fieldTruthy y "primary" = false) : emailCompare x y < 0 := by
  simp [emailCompare, hx, hy]

theorem emailCompare_nonneg {x y : Json}
    (h : fieldTruthy x "primary" = false ∨ fieldTruthy y "primary" = true) :
    ¬ emailCompare x y < 0 := by
  rcases h with h | h
  · by_cases hy : fieldTruthy y "primary" = true <;> simp [emailCompare, h, hy]
  · by_cases hx : fieldTruthy x "primary" = true <;> simp [emailCompare, hx, h]

theorem sortInsert_partitioned (x : Json) (ps ss : List Json)
    (hp : ∀ y ∈ ps, fieldTruthy y "primary" = true)
    (hs : ∀ y ∈ ss, fieldTruthy y "primary" = false) :
    sortInsert emailCompare x (ps ++ ss) =
      if fieldTruthy x "primary" then ps ++ x :: ss else ps ++ ss ++ [x] := by
  induction ps with
  | nil =>
      simp only [List.nil_append]
      induction ss with
      | nil => by_cases hx : fieldTruthy x "primary" = true <;> simp [sortInsert, hx]
      | cons y ys ih =>
          have hy := hs y (by simp)
          by_cases hx : fieldTruthy x "primary" = true
          · rw [sortInsert, if_pos (emailCompare_neg hx hy), if_pos hx]
          · have hx' : fieldTruthy x "primary" = false := by simpa using hx
            rw [sortInsert, if_neg (emailCompare_nonneg (Or.inl hx')),
              ih fun y hy => hs y (by simp [hy])]
            simp [hx']
  | cons p ps ih =>
      have hpp := hp p (by simp)
      rw [List.cons_append, sortInsert, if_neg (emailCompare_nonneg (Or.inr hpp)),
        ih fun y hy => hp y (by simp [hy])]
      by_cases hx : fieldTruthy x "primary" = true <;> simp [hx]

theorem jsSort_emailCompare_partition (l : List Json) :
    jsSort emailCompare l =
      l.filter (fieldTruthy · "primary") ++
      l.filter (fun y => !fieldTruthy y "primary") := by
  suffices h : ∀ (l ps ss : List Json),
      (∀ y ∈ ps, fieldTruthy y "primary" = true) →
      (∀ y ∈ ss, fieldTruthy y "primary" = false) →
      l.foldl (fun acc x => sortInsert emailCompare x acc) (ps ++ ss) =
        (ps ++ l.filter (fieldTruthy · "primary")) ++
        (ss ++ l.filter (fun y => !fieldTruthy y "primary")) by
    simpa [jsSort] using h l [] [] (by simp) (by simp)
  intro l
  induction l with
  | nil => intro ps ss hp hs; simp
  | cons x xs ih =>
      intro ps ss hp hs
      rw [List.foldl_cons, sortInsert_partitioned x ps ss hp hs]
      by_cases hx : fieldTruthy x "primary" = true
      · rw [if_pos hx]
        rw [show ps ++ x :: ss = (ps ++ [x]) ++ ss by simp]
        rw [ih (ps ++ [x]) ss
          (by
            intro y hy
            rcases List.mem_append.mp hy with hy | hy
            · exact hp y hy
            · simp only [List.mem_singleton] at hy
              subst hy
              exact hx) hs]
        simp [List.filter_cons, hx]
      · have hx' : fieldTruthy x "primary" = false := by simpa using hx
        rw [if_neg hx]
        rw [show ps ++ ss ++ [x] = ps ++ (ss ++ [x]) by simp]
        rw [ih ps (ss ++ [x]) hp
          (by
            intro y hy
            rcases List.mem_append.mp hy with hy | hy
            · exact hs y hy
            · simp only [List.mem_singleton] at hy
              subst hy
              exact hx')]
        simp [List.filter_cons, hx']

/-! ## Claim C6 -/

/-- C6: for every well-formed email list, the normalizer drops the
unverified entries, stably partitions the remainder so that every
primary entry precedes every non-primary entry (ties keep their
original relative order), and maps each survivor to
`{value: email, type: "primary" | "secondary"}`; in particular the
spec's three-element example yields
`[{value:"c@x",type:"primary"}, {value:"b@x",type:"secondary"}]`. -/
theorem c6_email_normalization (l : List EmailRecord) :
    Emails.Response.emails ⟨.arr (l.map EmailRecord.toJson)⟩ =
      (((l.filter (·.verified)).filter (·.primary) ++
        (l.filter (·.verified)).filter (fun e => !e.primary)).map fun e =>
        ({ value := some (.str e.email)
           type := if e.primary then "primary" else "secondary" } : NormalizedEmail)) ∧
    Emails.Response.emails ⟨.arr [
      EmailRecord.toJson ⟨"a@x", false, true, none⟩,
      EmailRecord.toJson ⟨"b@x", true, false, some "public"⟩,
      EmailRecord.toJson ⟨"c@x", true, true, none⟩]⟩ =
      [{ value := some (.str "c@x"), type := "primary" },
       { value := some (.str "b@x"), type := "secondary" }] := by
  refine ⟨?_, rfl⟩
  have hall : ∀ m : List EmailRecord,
      (m.map EmailRecord.toJson).all validEmailItem = true := by
    intro m
    induction m with
    | nil => rfl
    | cons e es ih => rw [List.map_cons, List.all_cons, ih, Bool.and_true]; rfl
  have hverified : (l.map EmailRecord.toJson).filter (fieldTruthy · "verified") =
      (l.filter (·.verified)).map EmailRecord.toJson := by
    rw [List.filter_map]
    rfl
  show Emails.Response.emails ⟨.arr (l.map EmailRecord.toJson)⟩ = _
  unfold Emails.Response.emails
  dsimp only
  rw [hall l, if_pos rfl]
  rw [hverified, jsSort_emailCompare_partition]
  rw [show ((l.filter (·.verified)).map EmailRecord.toJson).filter
        (fieldTruthy · "primary") =
      ((l.filter (·.verified)).filter (·.primary)).map EmailRecord.toJson from by
    rw [List.filter_map]; rfl]
  rw [show ((l.filter (·.verified)).map EmailRecord.toJson).filter
        (fun y => !fieldTruthy y "primary") =
      ((l.filter (·.verified)).filter (fun e => !e.primary)).map EmailRecord.toJson from by
    rw [List.filter_map]; rfl]
  rw [← List.map_append, List.map_map]
  rfl

/-! ## Claim C7 -/

/-- C7: for every parsed JSON body that is not an array, or whose
elements include a null, an array, a non-object, or an object missing
one of the four required keys, the normalizer returns the empty list —
and, the model being a total function, it never raises. -/
theorem c7_malformed_body_yields_empty (body : Json)
    (hbad : (∀ items, body ≠ .arr items) ∨
      (∃ items, body = .arr items ∧ ∃ item ∈ items, validEmailItem item = false)) :
    Emails.Response.emails ⟨body⟩ = [] := by
  rcases hbad with h | ⟨items, rfl, item, hmem, hitem⟩
  · cases body with
    | arr items => exact absurd rfl (h items)
    | null => rfl
    | bool b => rfl
    | num n => rfl
    | str s => rfl
    | obj fields => rfl
  · unfold Emails.Response.emails
    dsimp only
    have hall : items.all validEmailItem = false := by
      cases hall : items.all validEmailItem with
      | false => rfl
      | true =>
          have := List.all_eq_true.mp hall item hmem
          rw [hitem] at this
          exact absurd this (by simp)
    rw [hall]
    simp

/-- C7 witness: the spec's example bodies — `{}` (not an array) and
`[{email:"x"}]` (element missing required keys) — both normalize to the
empty list. -/
theorem c7_witness :
    Emails.Response.emails ⟨.obj []⟩ = [] ∧
    Emails.Response.emails ⟨.arr [.obj [("email", .str "x")]]⟩ = [] :=
  ⟨c7_malformed_body_yields_empty (.obj []) (Or.inl fun _ h => Json.noConfusion h),
   c7_malformed_body_yields_empty (.arr [.obj [("email", .str "x")]])
     (Or.inr ⟨[.obj [("email", .str "x")]], rfl, .obj [("email", .str "x")],
       by simp, rfl⟩)⟩

/-! ## Claim C8 -/

/-- C8 (implicit): in the remix-auth-oauth2 strategy variant, whenever
the configured scopes include `"user"` or `"user:email"`, the profile's
email list is empty — the fetched emails are discarded because the
result of `Array.prototype.concat` is never assigned — and only in the
other branch does the profile carry `[{value: data.email}]`. -/
theorem c8_scope_branch_discards_fetched_emails (scopes : Option (List String))
    (fetchedEmails : List ProfileEmail) (dataEmail : String) :
    (includesUserScope scopes = true →
      userProfileEmails scopes fetchedEmails dataEmail = []) ∧
    (includesUserScope scopes = false →
      userProfileEmails scopes fetchedEmails dataEmail = [⟨dataEmail⟩]) := by
  constructor <;> intro h <;> simp [userProfileEmails, h]

/-- C8 witness: with scope `user` the fetched email list is discarded;
with no scopes the profile carries the single `data.email` entry. -/
theorem c8_witness :
    userProfileEmails (some ["user"]) [⟨"fetched@x"⟩] "data@x" = [] ∧
    userProfileEmails none [] "data@x" = [⟨"data@x"⟩] :=
  ⟨(c8_scope_branch_discards_fetched_emails (some ["user"]) [⟨"fetched@x"⟩] "data@x").1
      (by decide),
   (c8_scope_branch_discards_fetched_emails none [] "data@x").2 rfl⟩

/-! ## Claim C10 -/

/-- C10 counterexample: the claim says an `expires_in` value that is
unparsable as an integer parses to `null`; but `Number.parseInt` never
throws — it returns `NaN` — so the dead `catch` branch never produces
`null`.  At the concrete response
`access_token=tok&token_type=bearer&expires_in=abc` the parsed expiry
is `NaN`, not `null`. -/
theorem c10_counterexample :
    getAccessToken "access_token=tok&token_type=bearer&expires_in=abc" =
      .ok { accessToken := "tok", refreshToken := "", tokenType := "bearer",
            accessTokenExpiresIn := some .nan, refreshTokenExpiresIn := none } ∧
    some JsNumber.nan ≠ (none : Option JsNumber) := by
  exact ⟨rfl, by decide⟩

/-- C10 (amended): `expires_in` and `refresh_token_expires_in` are
parsed with JavaScript `parseInt` semantics; the parsed result is
`null` exactly when the field is absent or empty, a non-empty
unparsable value yields `NaN` rather than `null`, and parsing never
throws (the model is a total function); a missing `access_token` or
`token_type` fails the exchange with the token-exchange error. -/
theorem c10_amended_token_parsing (text v : String) :
    (truthy (searchParamsGet (parseFormParams text) "access_token") = false →
      getAccessToken text = .error .missingAccessToken) ∧
    (truthy (searchParamsGet (parseFormParams text) "access_token") = true →
      truthy (searchParamsGet (parseFormParams text) "token_type") = false →
      getAccessToken text = .error .missingTokenType) ∧
    (truthy (searchParamsGet (parseFormParams text) "access_token") = true →
      truthy (searchParamsGet (parseFormParams text) "token_type") = true →
      getAccessToken text = .ok
        { accessToken := (searchParamsGet (parseFormParams text) "access_token").getD ""
          refreshToken := (searchParamsGet (parseFormParams text) "refresh_token").getD ""
          tokenType := (searchParamsGet (parseFormParams text) "token_type").getD ""
          accessTokenExpiresIn :=
            parseExpiresIn (searchParamsGet (parseFormParams text) "expires_in")
          refreshTokenExpiresIn :=
            parseExpiresIn
              (searchParamsGet (parseFormParams text) "refresh_token_expires_in") }) ∧
    (∀ ov : Option String, parseExpiresIn ov = none ↔ truthy ov = false) ∧
    (v ≠ "" → parseExpiresIn (some v) = some (parseIntJs v)) := by
  refine ⟨?_, ?_, ?_, ?_, ?_⟩
  · intro h
    simp [getAccessToken, h]
  · intro h1 h2
    simp [getAccessToken, h1, h2]
  · intro h1 h2
    simp [getAccessToken, h1, h2]
  · intro ov
    by_cases ht : truthy ov = true <;> simp [parseExpiresIn, ht]
  · intro hv
    simp [parseExpiresIn, truthy, hv]

/-- C10 witness: a concrete token response with a parsable expiry
parses to the integer, and `parseExpiresIn` agrees with `parseIntJs`
on it. -/
theorem c10_witness :
    getAccessToken "access_token=tok&token_type=bearer&expires_in=3600" =
      .ok { accessToken := "tok", refreshToken := "", tokenType := "bearer",
            accessTokenExpiresIn := some (.int 3600), refreshTokenExpiresIn := none } ∧
    parseExpiresIn (some "3600") = some (parseIntJs "3600") :=
  ⟨(c10_amended_token_parsing "access_token=tok&token_type=bearer&expires_in=3600"
      "3600").2.2.1 (by decide) (by decide),
   (c10_amended_token_parsing "access_token=tok&token_type=bearer&expires_in=3600"
      "3600").2.2.2.2 (by decide)⟩

end RemixAuthGitHub
